import Mathlib

/-!
Verification of the subscription-lifecycle binder of observable-hooks
(src/packages/observable-hooks/src/use-subscription.ts).

The hook `useSubscription` is embedded as an explicit state machine.
Observables and callbacks are identified by reference identity, modelled
as natural-number identifiers.  JavaScript runtime values that flow
through the error slot and emissions are modelled by `JSVal`, with the
JavaScript truthiness test made explicit, because the source guards both
the pending-error throw (line 108) and the callback slots with
truthiness checks.

The React host contract is the frame of the embedding: a render phase
runs the hook body (lines 54-61 and 108-113), a commit phase runs the
effect (lines 62-106) exactly when its dependency `args[0]` differs
from the previously committed one, running the previous cleanup (lines
103-105) strictly before the new effect body, and teardown runs the
cleanup alone.  Emissions of the underlying observable are delivered to
the handlers installed at subscribe time (lines 68-99).
-/

namespace ObservableHooks

/-- JavaScript values used for emitted values and for the error slot.
Numbers are modelled by integers; object identities by a numeric id. -/
inductive JSVal where
  | vUndefined : JSVal
  | vNull : JSVal
  | vBool : Bool → JSVal
  | vNum : Int → JSVal
  | vStr : String → JSVal
  | vObj : Nat → JSVal
deriving DecidableEq

/-- JavaScript truthiness, as used by `if (errorRef.current)` (line 108)
and by the callback guards (lines 74, 83, 95). -/
def JSVal.truthy : JSVal → Bool
  | JSVal.vUndefined => false
  | JSVal.vNull => false
  | JSVal.vBool b => b
  | JSVal.vNum n => decide (n ≠ 0)
  | JSVal.vStr s => decide (s ≠ "")
  | JSVal.vObj _ => true

/-- The argument tuple of `useSubscription`: the input observable (by
reference identity) and the three optional callbacks (by reference
identity; `none` models the null/undefined placeholder). -/
structure Args where
  source : Nat
  next : Option Nat
  error : Option Nat
  complete : Option Nat
deriving DecidableEq

/-- A subscription created by the effect body (line 68): it records the
observable captured in the subscribe closure (`input$`, line 66) and
whether it has been unsubscribed. -/
structure SubHandle where
  source : Nat
  closed : Bool
deriving DecidableEq

/-- The state of one hook instance: `argsRef` (line 54), the returned
`subscriptionRef` (line 59), the error slot `errorRef` (line 60), the
dependency and cleanup closure of the last-run effect (line 106 and
lines 103-105), and the log of every subscription ever created, indexed
by creation order. -/
structure BState where
  argsRef : Args
  subscriptionRef : Option Nat
  errorRef : JSVal
  effectDep : Option Nat
  effectSub : Option Nat
  subs : List SubHandle
deriving DecidableEq

/-- What a render pass produced: a thrown error (line 110) or the
returned ref holding the current subscription (line 113). -/
inductive RenderResult where
  | threw : JSVal → RenderResult
  | ok : Option Nat → RenderResult
deriving DecidableEq

/-- One render of the hook body: `argsRef.current = args` (line 55),
then `if (errorRef.current) throw errorRef.current` (lines 108-111),
else return `subscriptionRef` (line 113). -/
def render (s : BState) (a : Args) : BState × RenderResult :=
  match JSVal.truthy s.errorRef with
  | true => ({ s with argsRef := a }, RenderResult.threw s.errorRef)
  | false => ({ s with argsRef := a }, RenderResult.ok s.subscriptionRef)

/-- Unsubscribe the subscription at index `i` (idempotent, as
`Subscription.unsubscribe` is). -/
def closeAt (l : List SubHandle) (i : Nat) : List SubHandle :=
  match l[i]? with
  | none => l
  | some sub => l.set i { sub with closed := true }

/-- The effect cleanup (lines 103-105): unsubscribe the subscription
created by the last effect run, if any. -/
def effectCleanup (s : BState) : BState :=
  match s.effectSub with
  | none => s
  | some i => { s with subs := closeAt s.subs i }

/-- The effect body (lines 62-102): clear the error slot (line 63),
capture `input$ := argsRef.current[0]` (line 66), subscribe to it
(line 68), and record the new subscription in `subscriptionRef`
(line 101) and in the cleanup closure. -/
def effectBody (s : BState) : BState :=
  { s with
    errorRef := JSVal.vNull
    subs := s.subs ++ [{ source := s.argsRef.source, closed := false }]
    subscriptionRef := some s.subs.length
    effectSub := some s.subs.length
    effectDep := some s.argsRef.source }

/-- One commit phase: the effect has dependency list `[args[0]]`
(line 106), so it re-runs exactly when the committed source reference
differs from the previously committed one, running the previous cleanup
strictly before the new body; otherwise nothing happens. -/
def commit (s : BState) : BState :=
  if s.effectDep = some s.argsRef.source then s
  else effectBody (effectCleanup s)

/-- Unmount teardown: run the last cleanup (lines 103-105). -/
def teardown (s : BState) : BState :=
  effectCleanup s

/-- An emission of the underlying observable. -/
inductive Emission where
  | next : JSVal → Emission
  | error : JSVal → Emission
  | complete : Emission
deriving DecidableEq

/-- The externally observable outcome of delivering one emission:
dropped by the staleness check (or by an already-closed subscription),
a caller-supplied callback invoked with an optional argument, silently
ignored (slot empty for next/complete), or captured into the error slot
with a forced re-render requested (`forceUpdate()`, line 88). -/
inductive DispatchResult where
  | dropped : DispatchResult
  | callback : Nat → Option JSVal → DispatchResult
  | silent : DispatchResult
  | escalate : JSVal → DispatchResult
deriving DecidableEq

/-- The handler bodies installed at subscribe time (lines 69-98): first
the staleness check `input$ !== argsRef.current[0]`, then the truthiness
guard on the current callback slot; the error handler clears the error
slot before invoking a present callback (line 84) and otherwise stores
the error and requests a forced re-render (lines 87-88).  Returns the
new value of the error slot together with the outcome. -/
def handleEmission (a : Args) (errSlot : JSVal) (src : Nat) (em : Emission) :
    JSVal × DispatchResult :=
  if src = a.source then
    match em with
    | Emission.next v =>
      match a.next with
      | some cb => (errSlot, DispatchResult.callback cb (some v))
      | none => (errSlot, DispatchResult.silent)
    | Emission.error e =>
      match a.error with
      | some cb => (JSVal.vNull, DispatchResult.callback cb (some e))
      | none => (e, DispatchResult.escalate e)
    | Emission.complete =>
      match a.complete with
      | some cb => (errSlot, DispatchResult.callback cb none)
      | none => (errSlot, DispatchResult.silent)
  else (errSlot, DispatchResult.dropped)

/-- Delivery of one emission through the subscription at index `i`.  A
closed (unsubscribed) subscription can no longer invoke its handlers,
so the emission is dropped; otherwise the installed handlers run with
the observable captured in their closure. -/
def dispatch (s : BState) (i : Nat) (em : Emission) : BState × DispatchResult :=
  match s.subs[i]? with
  | none => (s, DispatchResult.dropped)
  | some sub =>
    match sub.closed with
    | true => (s, DispatchResult.dropped)
    | false =>
      ({ s with errorRef := (handleEmission s.argsRef s.errorRef sub.source em).1 },
        (handleEmission s.argsRef s.errorRef sub.source em).2)

/-- One host-driven step of the life of a hook instance. -/
inductive Step where
  | render : Args → Step
  | commitStep : Step
  | dispatchStep : Nat → Emission → Step
  | teardownStep : Step
deriving DecidableEq

/-- The state transition of one step. -/
def stepFn (s : BState) : Step → BState
  | Step.render a => (render s a).1
  | Step.commitStep => commit s
  | Step.dispatchStep i em => (dispatch s i em).1
  | Step.teardownStep => teardown s

/-- The state after the first render with arguments `a`: both refs are
fresh (`useRef(args)` line 54, `useRef<Subscription>()` line 59,
`useRef<Error | null>()` line 60) and no effect has run. -/
def initState (a : Args) : BState :=
  { argsRef := a
    subscriptionRef := none
    errorRef := JSVal.vUndefined
    effectDep := none
    effectSub := none
    subs := [] }

/-- Run a sequence of steps from the initial state. -/
def run (a : Args) (steps : List Step) : BState :=
  steps.foldl stepFn (initState a)

/-- The states a hook instance can be in. -/
inductive Reachable : BState → Prop where
  | base (a : Args) : Reachable (initState a)
  | step {s : BState} (st : Step) : Reachable s → Reachable (stepFn s st)

/-- Whether the subscription at index `i` of a subscription log is open
(created and not yet unsubscribed). -/
def openAtL (l : List SubHandle) (i : Nat) : Bool :=
  match l[i]? with
  | none => false
  | some sub => !sub.closed

/-- Whether the subscription at index `i` is open (created and not yet
unsubscribed). -/
def openAtB (s : BState) (i : Nat) : Bool :=
  openAtL s.subs i

/-- The number of open subscriptions of the instance. -/
def openCount (s : BState) : Nat :=
  (List.range s.subs.length).countP (fun i => openAtB s i)

/-- Every open subscription is the one created by the last effect run. -/
def Inv (s : BState) : Prop :=
  ∀ i, openAtB s i = true → s.effectSub = some i

/-- The observable captured by the subscription at index `i`. -/
def subSource (s : BState) (i : Nat) : Option Nat :=
  Option.map SubHandle.source s.subs[i]?

/-- Whether a dispatch outcome invoked a caller-supplied callback. -/
def isCallbackInvocation : DispatchResult → Bool
  | DispatchResult.callback _ _ => true
  | _ => false

/-- The callback slot of the argument tuple addressed by an emission. -/
def slotFor (a : Args) : Emission → Option Nat
  | Emission.next _ => a.next
  | Emission.error _ => a.error
  | Emission.complete => a.complete

/-- A step that is a render keeping the source reference `src`, or a
commit; used to state persistence of the error slot. -/
def sameSourceStepB (src : Nat) : Step → Bool
  | Step.render a => decide (a.source = src)
  | Step.commitStep => true
  | Step.dispatchStep _ _ => false
  | Step.teardownStep => false

/-! Frame lemmas: which parts of the state each operation can touch. -/

lemma render_fst (s : BState) (a : Args) : (render s a).1 = { s with argsRef := a } := by
  cases h : JSVal.truthy s.errorRef <;> simp [render, h]

lemma render_snd_of_truthy (s : BState) (a : Args) (h : JSVal.truthy s.errorRef = true) :
    (render s a).2 = RenderResult.threw s.errorRef := by
  simp [render, h]

lemma render_snd_of_not_truthy (s : BState) (a : Args) (h : JSVal.truthy s.errorRef = false) :
    (render s a).2 = RenderResult.ok s.subscriptionRef := by
  simp [render, h]

lemma dispatch_subs (s : BState) (i : Nat) (em : Emission) :
    (dispatch s i em).1.subs = s.subs := by
  cases h : s.subs[i]? with
  | none => simp [dispatch, h]
  | some sub => cases hc : sub.closed <;> simp [dispatch, h, hc]

lemma dispatch_effectSub (s : BState) (i : Nat) (em : Emission) :
    (dispatch s i em).1.effectSub = s.effectSub := by
  cases h : s.subs[i]? with
  | none => simp [dispatch, h]
  | some sub => cases hc : sub.closed <;> simp [dispatch, h, hc]

lemma dispatch_subscriptionRef (s : BState) (i : Nat) (em : Emission) :
    (dispatch s i em).1.subscriptionRef = s.subscriptionRef := by
  cases h : s.subs[i]? with
  | none => simp [dispatch, h]
  | some sub => cases hc : sub.closed <;> simp [dispatch, h, hc]

lemma dispatch_argsRef (s : BState) (i : Nat) (em : Emission) :
    (dispatch s i em).1.argsRef = s.argsRef := by
  cases h : s.subs[i]? with
  | none => simp [dispatch, h]
  | some sub => cases hc : sub.closed <;> simp [dispatch, h, hc]

lemma dispatch_effectDep (s : BState) (i : Nat) (em : Emission) :
    (dispatch s i em).1.effectDep = s.effectDep := by
  cases h : s.subs[i]? with
  | none => simp [dispatch, h]
  | some sub => cases hc : sub.closed <;> simp [dispatch, h, hc]

lemma effectCleanup_argsRef (s : BState) : (effectCleanup s).argsRef = s.argsRef := by
  cases h : s.effectSub <;> simp [effectCleanup, h]

lemma effectCleanup_errorRef (s : BState) : (effectCleanup s).errorRef = s.errorRef := by
  cases h : s.effectSub <;> simp [effectCleanup, h]

lemma effectCleanup_subscriptionRef (s : BState) :
    (effectCleanup s).subscriptionRef = s.subscriptionRef := by
  cases h : s.effectSub <;> simp [effectCleanup, h]

lemma effectCleanup_effectSub (s : BState) : (effectCleanup s).effectSub = s.effectSub := by
  cases h : s.effectSub <;> simp [effectCleanup, h]

lemma commit_of_same (s : BState) (h : s.effectDep = some s.argsRef.source) :
    commit s = s := by
  simp [commit, h]

lemma commit_of_rebind (s : BState) (h : s.effectDep ≠ some s.argsRef.source) :
    commit s = effectBody (effectCleanup s) := by
  simp [commit, h]

lemma commit_argsRef (s : BState) : (commit s).argsRef = s.argsRef := by
  unfold commit
  split
  case isTrue => rfl
  case isFalse => simp [effectBody, effectCleanup_argsRef]

/-! Dispatch unfolding lemmas for closed, stale and open subscriptions. -/

lemma dispatch_of_stale (s : BState) (i : Nat) (sub : SubHandle) (em : Emission)
    (hsub : s.subs[i]? = some sub) (hstale : sub.source ≠ s.argsRef.source) :
    dispatch s i em = (s, DispatchResult.dropped) := by
  cases hc : sub.closed
  case true => simp [dispatch, hsub, hc]
  case false => simp [dispatch, hsub, hc, handleEmission, hstale]

lemma dispatch_of_closed (s : BState) (i : Nat) (sub : SubHandle) (em : Emission)
    (hsub : s.subs[i]? = some sub) (hc : sub.closed = true) :
    dispatch s i em = (s, DispatchResult.dropped) := by
  simp [dispatch, hsub, hc]

lemma dispatch_of_open (s : BState) (i : Nat) (sub : SubHandle) (em : Emission)
    (hsub : s.subs[i]? = some sub) (hopen : sub.closed = false) :
    dispatch s i em =
      ({ s with errorRef := (handleEmission s.argsRef s.errorRef sub.source em).1 },
        (handleEmission s.argsRef s.errorRef sub.source em).2) := by
  simp [dispatch, hsub, hopen]

/-! Invariant: at most one open subscription, and it is the one created
by the last effect run. -/

lemma openAtL_iff (l : List SubHandle) (i : Nat) :
    openAtL l i = true ↔ ∃ sub, l[i]? = some sub ∧ sub.closed = false := by
  cases h : l[i]? with
  | none => simp [openAtL, h]
  | some sub => cases hc : sub.closed <;> simp [openAtL, h, hc]

lemma openAtL_closeAt (l : List SubHandle) (j i : Nat) :
    openAtL (closeAt l j) i = if i = j then false else openAtL l i := by
  cases hg : l[j]? with
  | none =>
    have hcl : closeAt l j = l := by simp [closeAt, hg]
    rw [hcl]
    by_cases hij : i = j
    · subst hij
      simp [openAtL, hg]
    · simp [hij]
  | some sub =>
    have hcl : closeAt l j = l.set j { sub with closed := true } := by
      simp [closeAt, hg]
    rw [hcl]
    by_cases hij : i = j
    · subst hij
      have hlt : i < l.length := by
        rcases List.getElem?_eq_some_iff.mp hg with ⟨hl, _⟩
        exact hl
      simp [openAtL, List.getElem?_set_self hlt]
    · have hne : j ≠ i := fun h => hij h.symm
      simp only [openAtL, List.getElem?_set_ne hne, if_neg hij]

lemma inv_initState (a : Args) : Inv (initState a) := by
  intro i hi
  simp [openAtB, openAtL, initState] at hi

lemma inv_render (s : BState) (a : Args) (hI : Inv s) : Inv ((render s a).1) := by
  intro i hi
  rw [render_fst] at hi ⊢
  exact hI i hi

lemma inv_dispatch (s : BState) (i : Nat) (em : Emission) (hI : Inv s) :
    Inv ((dispatch s i em).1) := by
  intro j hj
  have hj2 : openAtB s j = true := by
    unfold openAtB at hj ⊢
    rw [dispatch_subs] at hj
    exact hj
  rw [dispatch_effectSub]
  exact hI j hj2

lemma openAtB_effectCleanup (s : BState) (hI : Inv s) (i : Nat) :
    openAtB (effectCleanup s) i = false := by
  cases hes : s.effectSub with
  | none =>
    have hcl : effectCleanup s = s := by simp [effectCleanup, hes]
    rw [hcl]
    cases ho : openAtB s i with
    | false => rfl
    | true =>
      have h2 := hI i ho
      rw [hes] at h2
      cases h2
  | some j =>
    have hcl : (effectCleanup s).subs = closeAt s.subs j := by
      simp [effectCleanup, hes]
    unfold openAtB
    rw [hcl, openAtL_closeAt]
    by_cases hij : i = j
    · simp [hij]
    · rw [if_neg hij]
      cases ho : openAtL s.subs i with
      | false => rfl
      | true =>
        have h2 := hI i ho
        rw [hes] at h2
        cases h2
        exact absurd rfl hij

lemma inv_effectBody (s : BState) (hall : ∀ i, openAtB s i = false) :
    Inv (effectBody s) := by
  intro i hi
  unfold openAtB at hi
  rcases (openAtL_iff _ i).mp hi with ⟨sub, hsub, hopen⟩
  have hsubs : (effectBody s).subs =
      s.subs ++ [{ source := s.argsRef.source, closed := false }] := rfl
  rw [hsubs] at hsub
  rcases Nat.lt_or_ge i s.subs.length with hi2 | hi2
  · exfalso
    rw [List.getElem?_append_left hi2] at hsub
    have : openAtB s i = true := (openAtL_iff s.subs i).mpr ⟨sub, hsub, hopen⟩
    rw [hall i] at this
    cases this
  · have hlt : i < s.subs.length + 1 := by
      rcases List.getElem?_eq_some_iff.mp hsub with ⟨hl, _⟩
      simpa using hl
    have : i = s.subs.length := by omega
    subst this
    rfl

lemma inv_commit (s : BState) (hI : Inv s) : Inv (commit s) := by
  by_cases h : s.effectDep = some s.argsRef.source
  · rw [commit_of_same s h]
    exact hI
  · rw [commit_of_rebind s h]
    exact inv_effectBody _ (openAtB_effectCleanup s hI)

lemma inv_teardown (s : BState) (hI : Inv s) : Inv (teardown s) := by
  intro i hi
  have := openAtB_effectCleanup s hI i
  unfold teardown at hi
  rw [this] at hi
  cases hi

lemma reachable_inv {s : BState} (h : Reachable s) : Inv s := by
  induction h with
  | base a => exact inv_initState a
  | step st _ ih =>
    cases st with
    | render a => exact inv_render _ a ih
    | commitStep => exact inv_commit _ ih
    | dispatchStep i em => exact inv_dispatch _ i em ih
    | teardownStep => exact inv_teardown _ ih

lemma reachable_subscriptionRef {s : BState} (h : Reachable s) :
    s.subscriptionRef = s.effectSub := by
  induction h with
  | base a => rfl
  | step st _ ih =>
    cases st with
    | render a =>
      show ((render _ _).1).subscriptionRef = ((render _ _).1).effectSub
      rw [render_fst]
      exact ih
    | commitStep =>
      show (commit _).subscriptionRef = (commit _).effectSub
      unfold commit
      split
      case isTrue => exact ih
      case isFalse => rfl
    | dispatchStep i em =>
      rw [stepFn, dispatch_subscriptionRef, dispatch_effectSub]
      exact ih
    | teardownStep =>
      show (teardown _).subscriptionRef = (teardown _).effectSub
      unfold teardown
      rw [effectCleanup_subscriptionRef, effectCleanup_effectSub]
      exact ih

lemma length_le_one_of_nodup_allEq (l : List Nat) (hnd : l.Nodup)
    (h : ∀ a ∈ l, ∀ b ∈ l, a = b) : l.length ≤ 1 := by
  match l with
  | [] => simp
  | [a] => simp
  | a :: b :: t =>
    exfalso
    have hab : a = b := h a (by simp) b (by simp)
    have := (List.nodup_cons.mp hnd).1
    exact this (hab ▸ List.mem_cons_self b t)

lemma openCount_le_one (s : BState) (hI : Inv s) : openCount s ≤ 1 := by
  rw [openCount, List.countP_eq_length_filter]
  apply length_le_one_of_nodup_allEq _ ((List.nodup_range _).filter _)
  intro a ha b hb
  have ha2 := (List.mem_filter.mp ha).2
  have hb2 := (List.mem_filter.mp hb).2
  have h1 := hI a (by simpa using ha2)
  have h2 := hI b (by simpa using hb2)
  rw [h1] at h2
  exact Option.some.inj h2

lemma openCount_eq_zero (s : BState) (h : ∀ i, openAtB s i = false) :
    openCount s = 0 := by
  rw [openCount]
  apply List.countP_eq_zero.mpr
  intro a _
  simp [h a]

lemma reachable_foldl (steps : List Step) (s : BState) (h : Reachable s) :
    Reachable (steps.foldl stepFn s) := by
  induction steps generalizing s with
  | nil => exact h
  | cons st rest ih =>
    rw [List.foldl_cons]
    exact ih (stepFn s st) (Reachable.step st h)

lemma reachable_run (a : Args) (steps : List Step) : Reachable (run a steps) :=
  reachable_foldl steps (initState a) (Reachable.base a)

/-! Claim theorems. -/

/-- C7: every render-phase execution updates the latest-args cell to the
new tuple unconditionally and changes nothing else of the binder state:
it does not subscribe or unsubscribe, and leaves the subscription handle
and the pending-error slot unchanged. -/
theorem render_frame_condition (s : BState) (a : Args) :
    (render s a).1 = { s with argsRef := a } :=
  render_fst s a

/-- C1: after a commit swaps the bound source, any emission (next, error
or complete) produced by a subscription whose captured observable is not
the currently bound one is dropped: no callback is invoked, the pending
error slot is untouched and no re-render is forced (the state is
returned unchanged with outcome `dropped`). -/
theorem no_stale_delivery (s : BState) (i : Nat) (sub : SubHandle) (em : Emission)
    (hsub : (commit s).subs[i]? = some sub)
    (hstale : sub.source ≠ (commit s).argsRef.source) :
    dispatch (commit s) i em = (commit s, DispatchResult.dropped) :=
  dispatch_of_stale (commit s) i sub em hsub hstale

/-- C1 witness: source 0 is bound, a render swaps to source 1 and the
commit resubscribes; a late `next` emission from the old subscription is
dropped without any state change. -/
theorem no_stale_delivery_witness :
    dispatch
      (commit (run { source := 0, next := none, error := none, complete := none }
        [Step.commitStep,
         Step.render { source := 1, next := none, error := none, complete := none }]))
      0 (Emission.next (JSVal.vNum 2)) =
    (commit (run { source := 0, next := none, error := none, complete := none }
        [Step.commitStep,
         Step.render { source := 1, next := none, error := none, complete := none }]),
      DispatchResult.dropped) :=
  no_stale_delivery _ 0 { source := 0, closed := true } _ (by decide) (by decide)

/-- C9: a falsy error value emitted with no error callback current is
stored in the pending-error slot and a forced re-render is requested,
yet the following render pass does not throw, because the render-time
escalation is guarded by a truthiness test. -/
theorem falsy_error_no_throw (s : BState) (i : Nat) (sub : SubHandle) (e : JSVal) (a : Args)
    (hsub : s.subs[i]? = some sub) (hopen : sub.closed = false)
    (hcur : sub.source = s.argsRef.source) (hnocb : s.argsRef.error = none)
    (hfalsy : JSVal.truthy e = false) :
    dispatch s i (Emission.error e) = ({ s with errorRef := e }, DispatchResult.escalate e) ∧
    (render { s with errorRef := e } a).2 = RenderResult.ok s.subscriptionRef := by
  constructor
  · rw [dispatch_of_open s i sub _ hsub hopen]
    simp [handleEmission, hcur, hnocb]
  · exact render_snd_of_not_truthy _ a hfalsy

/-- C9 witness: the error value 0 is falsy; it is stored and escalated,
and the next render pass returns the subscription ref instead of
throwing. -/
theorem falsy_error_no_throw_witness :
    dispatch (run { source := 0, next := none, error := none, complete := none }
        [Step.commitStep]) 0 (Emission.error (JSVal.vNum 0)) =
      ({ run { source := 0, next := none, error := none, complete := none }
          [Step.commitStep] with errorRef := JSVal.vNum 0 },
        DispatchResult.escalate (JSVal.vNum 0)) ∧
    (render { run { source := 0, next := none, error := none, complete := none }
        [Step.commitStep] with errorRef := JSVal.vNum 0 }
      { source := 0, next := none, error := none, complete := none }).2 =
    RenderResult.ok (run { source := 0, next := none, error := none, complete := none }
        [Step.commitStep]).subscriptionRef :=
  falsy_error_no_throw _ 0 { source := 0, closed := false } (JSVal.vNum 0) _
    (by decide) (by decide) (by decide) (by decide) (by decide)

/-- C4: in every reachable state the number of open subscriptions is 0
or 1, and whenever a commit rebinds (the committed source differs from
the previously committed one) it runs the cleanup strictly before the
new effect body, and after the cleanup no subscription is open. -/
theorem at_most_one_subscription (s : BState) (h : Reachable s) :
    openCount s ≤ 1 ∧
    (s.effectDep ≠ some s.argsRef.source →
      commit s = effectBody (effectCleanup s) ∧ openCount (effectCleanup s) = 0) := by
  have hI := reachable_inv h
  refine ⟨openCount_le_one s hI, fun h2 => ⟨commit_of_rebind s h2, ?_⟩⟩
  exact openCount_eq_zero _ (openAtB_effectCleanup s hI)

/-- C4 witness: after binding source 0 and rendering source 1, at most
one subscription is open and the pending rebind fully tears down before
the replacement subscription is created. -/
theorem at_most_one_subscription_witness :
    openCount (run { source := 0, next := none, error := none, complete := none }
      [Step.commitStep,
       Step.render { source := 1, next := none, error := none, complete := none }]) ≤ 1 ∧
    commit (run { source := 0, next := none, error := none, complete := none }
      [Step.commitStep,
       Step.render { source := 1, next := none, error := none, complete := none }]) =
      effectBody (effectCleanup
        (run { source := 0, next := none, error := none, complete := none }
          [Step.commitStep,
           Step.render { source := 1, next := none, error := none, complete := none }])) ∧
    openCount (effectCleanup
      (run { source := 0, next := none, error := none, complete := none }
        [Step.commitStep,
         Step.render { source := 1, next := none, error := none, complete := none }])) = 0 := by
  have h := at_most_one_subscription
    (run { source := 0, next := none, error := none, complete := none }
      [Step.commitStep,
       Step.render { source := 1, next := none, error := none, complete := none }])
    (reachable_run _ _)
  exact ⟨h.1, h.2 (by decide)⟩

/-- C2 counterexample: the error value 0 is emitted with no error
callback current; the pending-error slot is set to 0 and a re-render is
forced, but the next render pass does not throw (it returns the
subscription ref), contradicting the claim that the next render pass
throws exactly the emitted error value for every error value. -/
theorem error_escalation_cx :
    (dispatch (run { source := 0, next := none, error := none, complete := none }
        [Step.commitStep]) 0 (Emission.error (JSVal.vNum 0))).2 =
      DispatchResult.escalate (JSVal.vNum 0) ∧
    (dispatch (run { source := 0, next := none, error := none, complete := none }
        [Step.commitStep]) 0 (Emission.error (JSVal.vNum 0))).1.errorRef = JSVal.vNum 0 ∧
    (render (dispatch (run { source := 0, next := none, error := none, complete := none }
        [Step.commitStep]) 0 (Emission.error (JSVal.vNum 0))).1
      { source := 0, next := none, error := none, complete := none }).2 =
      RenderResult.ok (some 0) := by
  decide

/-- C2 (amended): for every error value e emitted by the bound source,
if no error callback is current the pending-error slot is set to e and a
forced re-render is requested, and when e is truthy the next render pass
throws exactly e; if an error callback is current it is invoked with e,
the slot is cleared, and the next render pass does not throw. -/
theorem error_escalation_amended (s : BState) (i : Nat) (sub : SubHandle) (e : JSVal)
    (hsub : s.subs[i]? = some sub) (hopen : sub.closed = false)
    (hcur : sub.source = s.argsRef.source) :
    dispatch s i (Emission.error e) =
      (match s.argsRef.error with
       | none => ({ s with errorRef := e }, DispatchResult.escalate e)
       | some cb => ({ s with errorRef := JSVal.vNull }, DispatchResult.callback cb (some e))) ∧
    (s.argsRef.error = none → JSVal.truthy e = true →
      (render { s with errorRef := e } s.argsRef).2 = RenderResult.threw e) ∧
    (s.argsRef.error ≠ none →
      (render { s with errorRef := JSVal.vNull } s.argsRef).2 =
        RenderResult.ok s.subscriptionRef) := by
  refine ⟨?_, ?_, ?_⟩
  · rw [dispatch_of_open s i sub _ hsub hopen]
    cases hcb : s.argsRef.error <;> simp [handleEmission, hcur, hcb]
  · intro _ htr
    exact render_snd_of_truthy _ _ htr
  · intro _
    exact render_snd_of_not_truthy _ _ rfl

/-- C2 witness: with no error callback, the truthy error object 3 is
stored and the next render pass throws it; with error callback 5 bound,
the error object 4 is delivered to the callback, the slot is cleared,
and the next render pass does not throw. -/
theorem error_escalation_amended_witness :
    dispatch (run { source := 0, next := none, error := none, complete := none }
        [Step.commitStep]) 0 (Emission.error (JSVal.vObj 3)) =
      ({ run { source := 0, next := none, error := none, complete := none }
          [Step.commitStep] with errorRef := JSVal.vObj 3 },
        DispatchResult.escalate (JSVal.vObj 3)) ∧
    (render { run { source := 0, next := none, error := none, complete := none }
        [Step.commitStep] with errorRef := JSVal.vObj 3 }
      (run { source := 0, next := none, error := none, complete := none }
        [Step.commitStep]).argsRef).2 = RenderResult.threw (JSVal.vObj 3) ∧
    dispatch (run { source := 0, next := none, error := some 5, complete := none }
        [Step.commitStep]) 0 (Emission.error (JSVal.vObj 4)) =
      ({ run { source := 0, next := none, error := some 5, complete := none }
          [Step.commitStep] with errorRef := JSVal.vNull },
        DispatchResult.callback 5 (some (JSVal.vObj 4))) ∧
    (render { run { source := 0, next := none, error := some 5, complete := none }
        [Step.commitStep] with errorRef := JSVal.vNull }
      (run { source := 0, next := none, error := some 5, complete := none }
        [Step.commitStep]).argsRef).2 = RenderResult.ok (some 0) := by
  have h1 := error_escalation_amended
    (run { source := 0, next := none, error := none, complete := none } [Step.commitStep])
    0 { source := 0, closed := false } (JSVal.vObj 3) (by decide) (by decide) (by decide)
  have h2 := error_escalation_amended
    (run { source := 0, next := none, error := some 5, complete := none } [Step.commitStep])
    0 { source := 0, closed := false } (JSVal.vObj 4) (by decide) (by decide) (by decide)
  exact ⟨h1.1, h1.2.1 (by decide) (by decide), h2.1, h2.2.2 (by decide)⟩

/-- C3: when two consecutive commits carry the same source reference the
second commit leaves the state untouched (no new subscription, no
unsubscription), and the next emission dispatched after the later render
invokes the callbacks of the most recent render, never ones captured at
subscribe time. -/
theorem callback_freshness (s : BState) (a : Args) (i : Nat) (sub : SubHandle)
    (v e : JSVal) (cbn cbe cbc : Nat)
    (hdep : s.effectDep = some a.source)
    (hsub : s.subs[i]? = some sub) (hopen : sub.closed = false)
    (hcur : sub.source = a.source)
    (hnext : a.next = some cbn) (herr : a.error = some cbe) (hcomp : a.complete = some cbc) :
    commit ((render s a).1) = (render s a).1 ∧
    dispatch (commit ((render s a).1)) i (Emission.next v) =
      (commit ((render s a).1), DispatchResult.callback cbn (some v)) ∧
    dispatch (commit ((render s a).1)) i (Emission.error e) =
      ({ commit ((render s a).1) with errorRef := JSVal.vNull },
        DispatchResult.callback cbe (some e)) ∧
    dispatch (commit ((render s a).1)) i Emission.complete =
      (commit ((render s a).1), DispatchResult.callback cbc none) := by
  rw [render_fst]
  have h1 : commit { s with argsRef := a } = { s with argsRef := a } :=
    commit_of_same _ hdep
  rw [h1]
  refine ⟨rfl, ?_, ?_, ?_⟩
  · rw [dispatch_of_open { s with argsRef := a } i sub _ hsub hopen]
    simp [handleEmission, hcur, hnext]
  · rw [dispatch_of_open { s with argsRef := a } i sub _ hsub hopen]
    simp [handleEmission, hcur, herr]
  · rw [dispatch_of_open { s with argsRef := a } i sub _ hsub hopen]
    simp [handleEmission, hcur, hcomp]

/-- C3 witness: source 0 stays bound while the callbacks change from
(1, 2, 3) to (11, 12, 13); the commit is a no-op and the next emissions
are delivered to the new callbacks 11, 12 and 13. -/
theorem callback_freshness_witness :
    commit ((render (run { source := 0, next := some 1, error := some 2, complete := some 3 }
        [Step.commitStep])
      { source := 0, next := some 11, error := some 12, complete := some 13 }).1) =
      ((render (run { source := 0, next := some 1, error := some 2, complete := some 3 }
        [Step.commitStep])
      { source := 0, next := some 11, error := some 12, complete := some 13 }).1) ∧
    dispatch (commit ((render
        (run { source := 0, next := some 1, error := some 2, complete := some 3 }
          [Step.commitStep])
        { source := 0, next := some 11, error := some 12, complete := some 13 }).1))
      0 (Emission.next (JSVal.vNum 7)) =
      (commit ((render (run { source := 0, next := some 1, error := some 2, complete := some 3 }
          [Step.commitStep])
        { source := 0, next := some 11, error := some 12, complete := some 13 }).1),
        DispatchResult.callback 11 (some (JSVal.vNum 7))) ∧
    dispatch (commit ((render
        (run { source := 0, next := some 1, error := some 2, complete := some 3 }
          [Step.commitStep])
        { source := 0, next := some 11, error := some 12, complete := some 13 }).1))
      0 (Emission.error (JSVal.vObj 8)) =
      ({ commit ((render (run { source := 0, next := some 1, error := some 2, complete := some 3 }
          [Step.commitStep])
        { source := 0, next := some 11, error := some 12, complete := some 13 }).1) with
          errorRef := JSVal.vNull },
        DispatchResult.callback 12 (some (JSVal.vObj 8))) ∧
    dispatch (commit ((render
        (run { source := 0, next := some 1, error := some 2, complete := some 3 }
          [Step.commitStep])
        { source := 0, next := some 11, error := some 12, complete := some 13 }).1))
      0 Emission.complete =
      (commit ((render (run { source := 0, next := some 1, error := some 2, complete := some 3 }
          [Step.commitStep])
        { source := 0, next := some 11, error := some 12, complete := some 13 }).1),
        DispatchResult.callback 13 none) :=
  callback_freshness _ _ 0 { source := 0, closed := false } (JSVal.vNum 7) (JSVal.vObj 8)
    11 12 13 (by decide) (by decide) (by decide) (by decide) (by decide) (by decide) (by decide)

/-- C5: if the pending-error slot holds a captured error and a later
commit binds a different source, the slot is cleared at the start of the
new subscription lifecycle and the following render pass does not throw. -/
theorem error_slot_reset (s : BState) (a : Args) (e : JSVal)
    (_he : s.errorRef = e)
    (hswap : s.effectDep ≠ some a.source) :
    (commit ((render s a).1)).errorRef = JSVal.vNull ∧
    (render (commit ((render s a).1)) a).2 =
      RenderResult.ok (commit ((render s a).1)).subscriptionRef := by
  rw [render_fst]
  have h1 : commit { s with argsRef := a } =
      effectBody (effectCleanup { s with argsRef := a }) :=
    commit_of_rebind _ hswap
  rw [h1]
  exact ⟨rfl, render_snd_of_not_truthy _ _ rfl⟩

/-- C5 witness: the error object 7 is captured (no handler) under
source 0; a commit rebinds to source 1, the slot is cleared and the
next render pass does not throw. -/
theorem error_slot_reset_witness :
    (commit ((render (run { source := 0, next := none, error := none, complete := none }
        [Step.commitStep, Step.dispatchStep 0 (Emission.error (JSVal.vObj 7))])
      { source := 1, next := none, error := none, complete := none }).1)).errorRef =
      JSVal.vNull ∧
    (render (commit ((render
        (run { source := 0, next := none, error := none, complete := none }
          [Step.commitStep, Step.dispatchStep 0 (Emission.error (JSVal.vObj 7))])
        { source := 1, next := none, error := none, complete := none }).1))
      { source := 1, next := none, error := none, complete := none }).2 =
      RenderResult.ok (commit ((render
        (run { source := 0, next := none, error := none, complete := none }
          [Step.commitStep, Step.dispatchStep 0 (Emission.error (JSVal.vObj 7))])
        { source := 1, next := none, error := none, complete := none }).1)).subscriptionRef :=
  error_slot_reset _ _ (JSVal.vObj 7) (by decide) (by decide)

/-! Persistence of the error slot across same-source renders and
commits, and commit-free runs. -/

lemma persist_aux (src : Nat) (e : JSVal) :
    ∀ (steps : List Step) (s : BState),
      s.errorRef = e → s.argsRef.source = src → s.effectDep = some src →
      (∀ st ∈ steps, sameSourceStepB src st = true) →
      (steps.foldl stepFn s).errorRef = e := by
  intro steps
  induction steps with
  | nil =>
    intro s h1 _ _ _
    simpa using h1
  | cons st rest ih =>
    intro s h1 h2 h3 hall
    have hst : sameSourceStepB src st = true := hall st (List.mem_cons_self st rest)
    have hrest : ∀ st2 ∈ rest, sameSourceStepB src st2 = true :=
      fun st2 hm => hall st2 (List.mem_cons_of_mem st hm)
    rw [List.foldl_cons]
    cases st with
    | render a =>
      have ha : a.source = src := of_decide_eq_true hst
      apply ih
      · show ((render s a).1).errorRef = e
        rw [render_fst]
        exact h1
      · show ((render s a).1).argsRef.source = src
        rw [render_fst]
        exact ha
      · show ((render s a).1).effectDep = some src
        rw [render_fst]
        exact h3
      · exact hrest
    | commitStep =>
      have hc : commit s = s := commit_of_same s (by rw [h2]; exact h3)
      show (rest.foldl stepFn (commit s)).errorRef = e
      rw [hc]
      exact ih s h1 h2 h3 hrest
    | dispatchStep i em =>
      exact absurd hst (by simp [sameSourceStepB])
    | teardownStep =>
      exact absurd hst (by simp [sameSourceStepB])

lemma foldl_commitFree (steps : List Step) :
    ∀ s : BState, s.subs = [] → s.subscriptionRef = none →
      s.errorRef = JSVal.vUndefined → s.effectSub = none →
      (∀ st ∈ steps, st ≠ Step.commitStep) →
      (steps.foldl stepFn s).subs = [] ∧
      (steps.foldl stepFn s).subscriptionRef = none ∧
      (steps.foldl stepFn s).errorRef = JSVal.vUndefined ∧
      (steps.foldl stepFn s).effectSub = none := by
  induction steps with
  | nil =>
    intro s h1 h2 h3 h4 _
    exact ⟨h1, h2, h3, h4⟩
  | cons st rest ih =>
    intro s h1 h2 h3 h4 hall
    have hst : st ≠ Step.commitStep := hall st (List.mem_cons_self st rest)
    have hrest : ∀ st2 ∈ rest, st2 ≠ Step.commitStep :=
      fun st2 hm => hall st2 (List.mem_cons_of_mem st hm)
    rw [List.foldl_cons]
    cases st with
    | render a =>
      apply ih
      · rw [show stepFn s (Step.render a) = (render s a).1 from rfl, render_fst]
        exact h1
      · rw [show stepFn s (Step.render a) = (render s a).1 from rfl, render_fst]
        exact h2
      · rw [show stepFn s (Step.render a) = (render s a).1 from rfl, render_fst]
        exact h3
      · rw [show stepFn s (Step.render a) = (render s a).1 from rfl, render_fst]
        exact h4
      · exact hrest
    | commitStep => exact absurd rfl hst
    | dispatchStep i em =>
      have hd : dispatch s i em = (s, DispatchResult.dropped) := by
        simp [dispatch, h1]
      rw [show stepFn s (Step.dispatchStep i em) = (dispatch s i em).1 from rfl, hd]
      exact ih s h1 h2 h3 h4 hrest
    | teardownStep =>
      have ht : teardown s = s := by
        simp [teardown, effectCleanup, h4]
      rw [show stepFn s Step.teardownStep = teardown s from rfl, ht]
      exact ih s h1 h2 h3 h4 hrest

lemma run_commitFree (a : Args) (steps : List Step)
    (h : ∀ st ∈ steps, st ≠ Step.commitStep) :
    (run a steps).subs = [] ∧ (run a steps).subscriptionRef = none ∧
    (run a steps).errorRef = JSVal.vUndefined ∧ (run a steps).effectSub = none :=
  foldl_commitFree steps (initState a) rfl rfl rfl rfl h

/-- C6: once the pending-error slot holds a value it keeps that value
across every sequence of renders and commits whose source reference is
unchanged (including renders that throw it, and in particular renders
that leave the callbacks absent or unchanged); it is cleared when a
commit binds a new source reference, and when an error emission is
dispatched to a current error callback. -/
theorem pending_error_persistence (s : BState) (e : JSVal) (steps : List Step)
    (he : s.errorRef = e) (hdep : s.effectDep = some s.argsRef.source)
    (hsteps : ∀ st ∈ steps, sameSourceStepB s.argsRef.source st = true) :
    (steps.foldl stepFn s).errorRef = e ∧
    (∀ a2 : Args, a2.source ≠ s.argsRef.source →
      (commit ((render s a2).1)).errorRef = JSVal.vNull) ∧
    (∀ (i : Nat) (sub : SubHandle) (cb : Nat) (e2 : JSVal),
      s.subs[i]? = some sub → sub.closed = false →
      sub.source = s.argsRef.source → s.argsRef.error = some cb →
      (dispatch s i (Emission.error e2)).1.errorRef = JSVal.vNull) := by
  refine ⟨persist_aux s.argsRef.source e steps s he rfl hdep hsteps, ?_, ?_⟩
  · intro a2 hchange
    rw [render_fst]
    have h1 : commit { s with argsRef := a2 } =
        effectBody (effectCleanup { s with argsRef := a2 }) := by
      apply commit_of_rebind
      intro hEq
      rw [hdep] at hEq
      exact hchange (Option.some.inj hEq).symm
    rw [h1]
    rfl
  · intro i sub cb e2 hsub hopen hcur hcb
    rw [dispatch_of_open s i sub _ hsub hopen]
    simp [handleEmission, hcur, hcb]

/-- C6 witness: the error object 7 is captured under source 0 with no
error callback current; it persists across a further same-source render
that leaves the callbacks absent and a same-source commit, while a
commit binding source 1 clears it; at a second state where a later
render has bound error callback 5, dispatching a further error to that
callback also clears the slot. -/
theorem pending_error_persistence_witness :
    (([Step.render { source := 0, next := none, error := none, complete := none },
       Step.commitStep].foldl stepFn
      (run { source := 0, next := none, error := none, complete := none }
        [Step.commitStep, Step.dispatchStep 0 (Emission.error (JSVal.vObj 7))]))).errorRef =
      JSVal.vObj 7 ∧
    (commit ((render (run { source := 0, next := none, error := none, complete := none }
        [Step.commitStep, Step.dispatchStep 0 (Emission.error (JSVal.vObj 7))])
      { source := 1, next := none, error := none, complete := none }).1)).errorRef =
      JSVal.vNull ∧
    (dispatch (run { source := 0, next := none, error := none, complete := none }
        [Step.commitStep, Step.dispatchStep 0 (Emission.error (JSVal.vObj 7)),
         Step.render { source := 0, next := none, error := some 5, complete := none }])
      0 (Emission.error (JSVal.vObj 8))).1.errorRef = JSVal.vNull := by
  have h1 := pending_error_persistence
    (run { source := 0, next := none, error := none, complete := none }
      [Step.commitStep, Step.dispatchStep 0 (Emission.error (JSVal.vObj 7))])
    (JSVal.vObj 7)
    [Step.render { source := 0, next := none, error := none, complete := none },
     Step.commitStep]
    (by decide) (by decide) (by decide)
  have h2 := pending_error_persistence
    (run { source := 0, next := none, error := none, complete := none }
      [Step.commitStep, Step.dispatchStep 0 (Emission.error (JSVal.vObj 7)),
       Step.render { source := 0, next := none, error := some 5, complete := none }])
    (JSVal.vObj 7) []
    (by decide) (by decide) (by decide)
  exact ⟨h1.1,
    h1.2.1 { source := 1, next := none, error := none, complete := none } (by decide),
    h2.2.2 0 { source := 0, closed := false } 5 (JSVal.vObj 8)
      (by decide) (by decide) (by decide) (by decide)⟩

/-- C8: the binding operation returns the handle cell; on every render
of a commit-free run the cell is empty and the render returns an empty
handle, and in every reachable state any open subscription is the one
the returned handle designates. -/
theorem returned_handle (a a2 : Args) (steps : List Step) (s : BState) (i : Nat)
    (hnc : ∀ st ∈ steps, st ≠ Step.commitStep)
    (hr : Reachable s) (ho : openAtB s i = true) :
    (run a steps).subscriptionRef = none ∧
    (render (run a steps) a2).2 = RenderResult.ok none ∧
    s.subscriptionRef = some i := by
  obtain ⟨hsubs, hsr, herr, heff⟩ := run_commitFree a steps hnc
  refine ⟨hsr, ?_, ?_⟩
  · have h2 := render_snd_of_not_truthy (run a steps) a2 (by rw [herr]; rfl)
    rw [hsr] at h2
    exact h2
  · have h1 := reachable_subscriptionRef hr
    have h2 := reachable_inv hr i ho
    rw [h1, h2]

/-- C8 witness: two renders with no commit leave the returned handle
empty, while after a first commit the open subscription 0 is the one the
handle holds. -/
theorem returned_handle_witness :
    (run { source := 0, next := none, error := none, complete := none }
      [Step.render { source := 2, next := some 1, error := none, complete := none }]).subscriptionRef =
      none ∧
    (render (run { source := 0, next := none, error := none, complete := none }
        [Step.render { source := 2, next := some 1, error := none, complete := none }])
      { source := 0, next := none, error := none, complete := none }).2 =
      RenderResult.ok none ∧
    (run { source := 0, next := none, error := none, complete := none }
      [Step.commitStep]).subscriptionRef = some 0 :=
  returned_handle { source := 0, next := none, error := none, complete := none }
    { source := 0, next := none, error := none, complete := none }
    [Step.render { source := 2, next := some 1, error := none, complete := none }]
    (run { source := 0, next := none, error := none, complete := none } [Step.commitStep])
    0 (by decide) (reachable_run _ _) (by decide)

/-- C10 counterexample: with the bound source reference-equal to the
latest render source but a null next callback, a next emission invokes
no callback (it is silently ignored), so delivery to a callback is not
equivalent to reference equality of the sources alone. -/
theorem staleness_cx :
    ¬ (isCallbackInvocation
        (dispatch (run { source := 0, next := none, error := none, complete := none }
          [Step.commitStep]) 0 (Emission.next (JSVal.vNum 1))).2 = true ↔
       subSource (run { source := 0, next := none, error := none, complete := none }
          [Step.commitStep]) 0 =
        some (run { source := 0, next := none, error := none, complete := none }
          [Step.commitStep]).argsRef.source) := by
  decide

/-- C10 (amended): an emission through an open subscription is dispatched
to a callback if and only if the captured observable is reference-equal
to the source argument of the most recent render and the corresponding
callback slot is non-null (otherwise next/complete are silently ignored
and an error escalates instead); consequently a render passing a new
source already suppresses deliveries from the still-open old
subscription before any commit. -/
theorem staleness_amended (s : BState) (i : Nat) (sub : SubHandle) (a : Args) (em : Emission)
    (hsub : s.subs[i]? = some sub) (hopen : sub.closed = false) :
    (isCallbackInvocation (dispatch s i em).2 = true ↔
      (sub.source = s.argsRef.source ∧ slotFor s.argsRef em ≠ none)) ∧
    (sub.source ≠ a.source →
      dispatch ((render s a).1) i em = ((render s a).1, DispatchResult.dropped)) := by
  constructor
  · rw [dispatch_of_open s i sub em hsub hopen]
    by_cases hcur : sub.source = s.argsRef.source
    · cases em with
      | next v =>
        cases hn : s.argsRef.next <;>
          simp [handleEmission, hcur, isCallbackInvocation, slotFor, hn]
      | error e =>
        cases hn : s.argsRef.error <;>
          simp [handleEmission, hcur, isCallbackInvocation, slotFor, hn]
      | complete =>
        cases hn : s.argsRef.complete <;>
          simp [handleEmission, hcur, isCallbackInvocation, slotFor, hn]
    · simp [handleEmission, hcur, isCallbackInvocation]
  · intro hne
    rw [render_fst]
    exact dispatch_of_stale { s with argsRef := a } i sub em hsub hne

/-- C10 witness: with matching source and next callback 1 present the
emission is dispatched to a callback, while after a render passing the
new source 2 (before any commit) the same emission through the old open
subscription is dropped. -/
theorem staleness_amended_witness :
    isCallbackInvocation
      (dispatch (run { source := 0, next := some 1, error := none, complete := none }
        [Step.commitStep]) 0 (Emission.next (JSVal.vNum 5))).2 = true ∧
    dispatch ((render (run { source := 0, next := some 1, error := none, complete := none }
        [Step.commitStep])
      { source := 2, next := none, error := none, complete := none }).1)
      0 (Emission.next (JSVal.vNum 5)) =
      ((render (run { source := 0, next := some 1, error := none, complete := none }
          [Step.commitStep])
        { source := 2, next := none, error := none, complete := none }).1,
        DispatchResult.dropped) := by
  have h := staleness_amended
    (run { source := 0, next := some 1, error := none, complete := none } [Step.commitStep])
    0 { source := 0, closed := false }
    { source := 2, next := none, error := none, complete := none }
    (Emission.next (JSVal.vNum 5)) (by decide) (by decide)
  exact ⟨h.1.mpr (by decide), h.2 (by decide)⟩

end ObservableHooks
